import Mathlib

/-!
Verification development for the lead-generation pipeline in
`src/services/geminiService.ts`.

The embedding models:
  * `parseJsonResponse`  - extraction of a JSON value from free-form model text
    (fenced-code-block regex, first-`{`-to-last-`}` fallback);
  * `generateContentWithRetry` - the transport-layer retrier with exponential
    backoff and its transient/permanent error classification;
  * `validateLead` - the per-lead website validator;
  * `generateLeads` - the orchestrator (discovery, fan-out research, all-failed
    escalation, validation, progress reporting).

External effects are modelled by explicit scripts: a call script
`Nat → CallOutcome` gives the outcome of each successive model invocation, and
the retrier / orchestrator return traces recording invocation counts, backoff
delays and emitted progress values.  `JSON.parse` (a JavaScript builtin, not
repository code) is modelled by `jsonParse`, a strict fuel-based parser for the
JSON fragment exercised here (strings with simple escapes, integers, booleans,
null, arrays, objects).
-/

/-- JSON values, the result type of the modelled `JSON.parse`. -/
inductive Json where
  | null : Json
  | bool : Bool → Json
  | num : Int → Json
  | str : String → Json
  | arr : List Json → Json
  | obj : List (String × Json) → Json
  deriving Repr, Inhabited

/-- JSON whitespace characters accepted by `JSON.parse`. -/
def jsonWsChar (c : Char) : Bool :=
  c = ' ' || c = '\t' || c = '\n' || c = '\r'

/-- Characters matched by the JavaScript regex class `\s` (ASCII part). -/
def regexWsChar (c : Char) : Bool :=
  c = ' ' || c = '\t' || c = '\n' || c = '\r' || c = '\x0b' || c = '\x0c'

def skipJsonWs (cs : List Char) : List Char := cs.dropWhile jsonWsChar

def isDigitCh (c : Char) : Bool := '0' ≤ c && c ≤ '9'

/-- Decimal digits to a natural number (most significant first). -/
def digitsVal (cs : List Char) : Nat :=
  cs.foldl (fun a c => a * 10 + (c.toNat - 48)) 0

/-- Parse a nonempty digit run as a natural number, returning the rest. -/
def parseNatNum (cs : List Char) : Option (Nat × List Char) :=
  let digits := cs.takeWhile isDigitCh
  if digits = [] then none else some (digitsVal digits, cs.drop digits.length)

/-- Map a JSON string escape character to the character it denotes. -/
def escChar (c : Char) : Option Char :=
  if c = '"' then some '"'
  else if c = '\\' then some '\\'
  else if c = '/' then some '/'
  else if c = 'n' then some '\n'
  else if c = 't' then some '\t'
  else if c = 'r' then some '\r'
  else if c = 'b' then some '\x08'
  else if c = 'f' then some '\x0c'
  else none

/-- Scan the body of a JSON string literal (after the opening quote) up to the
closing quote, decoding simple escapes; returns the decoded characters and the
rest of the input. -/
def jsonStrChars : List Char → Option (List Char × List Char)
  | [] => none
  | c :: rest =>
    if c = '"' then some ([], rest)
    else if c = '\\' then
      match rest with
      | [] => none
      | e :: rest2 =>
        match escChar e with
        | none => none
        | some d => (jsonStrChars rest2).map (fun p => (d :: p.1, p.2))
    else (jsonStrChars rest).map (fun p => (c :: p.1, p.2))

mutual

/-- Fuel-based recursive-descent parser for a JSON value. -/
def parseJsonVal : Nat → List Char → Option (Json × List Char)
  | 0, _ => none
  | fuel + 1, cs =>
    match skipJsonWs cs with
    | [] => none
    | 'n' :: 'u' :: 'l' :: 'l' :: rest => some (.null, rest)
    | 't' :: 'r' :: 'u' :: 'e' :: rest => some (.bool true, rest)
    | 'f' :: 'a' :: 'l' :: 's' :: 'e' :: rest => some (.bool false, rest)
    | '"' :: rest => (jsonStrChars rest).map (fun p => (.str (String.mk p.1), p.2))
    | '[' :: rest =>
      (match skipJsonWs rest with
       | ']' :: r => some (.arr [], r)
       | other => parseJsonItems fuel other [])
    | '-' :: rest => (parseNatNum rest).map (fun p => (.num (-(p.1 : Int)), p.2))
    | c :: rest =>
      if c = '{' then
        (match skipJsonWs rest with
         | other =>
           match other with
           | c2 :: r => if c2 = '}' then some (.obj [], r) else parseJsonFields fuel other []
           | [] => none)
      else if isDigitCh c then
        (parseNatNum (c :: rest)).map (fun p => (.num (p.1 : Int), p.2))
      else none

/-- Parse the items of a JSON array after the opening bracket. -/
def parseJsonItems : Nat → List Char → List Json → Option (Json × List Char)
  | 0, _, _ => none
  | fuel + 1, cs, acc =>
    match parseJsonVal fuel cs with
    | none => none
    | some (v, rest) =>
      match skipJsonWs rest with
      | ',' :: r => parseJsonItems fuel r (acc ++ [v])
      | ']' :: r => some (.arr (acc ++ [v]), r)
      | _ => none

/-- Parse the fields of a JSON object after the opening brace. -/
def parseJsonFields : Nat → List Char → List (String × Json) → Option (Json × List Char)
  | 0, _, _ => none
  | fuel + 1, cs, acc =>
    match skipJsonWs cs with
    | '"' :: rest =>
      (match jsonStrChars rest with
       | none => none
       | some (k, r1) =>
         match skipJsonWs r1 with
         | ':' :: r2 =>
           (match parseJsonVal fuel r2 with
            | none => none
            | some (v, r3) =>
              match skipJsonWs r3 with
              | ',' :: r4 => parseJsonFields fuel r4 (acc ++ [(String.mk k, v)])
              | c :: r4 => if c = '}' then some (.obj (acc ++ [(String.mk k, v)]), r4) else none
              | [] => none)
         | _ => none)
    | _ => none

end

/-- Model of the JavaScript builtin `JSON.parse`: strict parse of the whole
string (modulo surrounding JSON whitespace); `none` models a thrown
`SyntaxError`. -/
def jsonParse (s : String) : Option Json :=
  match parseJsonVal (2 * s.length + 2) s.data with
  | some (j, rest) => if skipJsonWs rest = [] then some j else none
  | none => none

/-- JavaScript property access `j.k` on a parsed JSON value: `none` models
`undefined` (also for non-object values).  For duplicate keys the last
occurrence wins, as in `JSON.parse`. -/
def Json.getField : Json → String → Option Json
  | .obj fields, k => ((fields.reverse).find? (fun p => p.1 = k)).map (fun p => p.2)
  | _, _ => none

theorem jsonParse_empty_obj : jsonParse "\x7b\x7d" = some (.obj []) := rfl

theorem jsonParse_sample :
    jsonParse "\x7b\"a\":1\x7d" = some (.obj [("a", .num 1)]) := rfl

/-- The backtick character. -/
def tick : Char := Char.ofNat 96

/-- Split the input at the first occurrence of the three-backtick marker,
returning the text before the marker and the text after it.  Models the
leftmost-match search of the fence regex in `parseJsonResponse`. -/
def splitTicks : List Char → Option (List Char × List Char)
  | [] => none
  | c :: rest =>
    if c = tick && rest.take 2 = [tick, tick] then some ([], rest.drop 2)
    else (splitTicks rest).map (fun p => (c :: p.1, p.2))

/-- Strip leading and trailing `\s` characters. -/
def trimWsChars (cs : List Char) : List Char :=
  ((cs.dropWhile regexWsChar).reverse.dropWhile regexWsChar).reverse

/-- The capture group of the fence regex in `parseJsonResponse`
applied to `text`: the contents of the first fenced code block, with an
optional `json` tag skipped and surrounding whitespace trimmed.  `none` when
the regex does not match (fewer than two fence markers). -/
def extractFence (text : List Char) : Option (List Char) :=
  match splitTicks text with
  | none => none
  | some (_, afterOpen) =>
    let afterLang := if afterOpen.take 4 = ['j', 's', 'o', 'n'] then afterOpen.drop 4 else afterOpen
    match splitTicks afterLang with
    | none => none
    | some (seg, _) => some (trimWsChars seg)

/-- The substring of `text` from the first `{` to the last `}` (inclusive),
provided the first `{` exists and the last `}` lies strictly after it; the
fallback span of `parseJsonResponse`. -/
def braceSpan (text : List Char) : Option (List Char) :=
  match text.findIdx? (fun c => c = '{'), (text.reverse.findIdx? (fun c => c = '}')).map (fun k => text.length - 1 - k) with
  | some i, some j => if i < j then some ((text.drop i).take (j - i + 1)) else none
  | _, _ => none

/-- Error message thrown when every extraction attempt fails
(`geminiService.ts` line 61). -/
def invalidFormatMsg : String := "The AI returned a response in an invalid format."

/-- Embedding of `parseJsonResponse` (`geminiService.ts` lines 27-62).
Empty text returns the empty object; otherwise the first fenced code block is
tried (only when its capture is nonempty, since an empty capture is falsy in
`codeBlockMatch[1]`), then the first-`{`-to-last-`}` span; if all attempts
fail the function throws, modelled as `.error`. -/
def parseJsonResponse (text : String) : Except String Json :=
  if text.data = [] then .ok (.obj [])
  else
    let fenced : Option Json :=
      match extractFence text.data with
      | some cap => if cap = [] then none else jsonParse (String.mk cap)
      | none => none
    match fenced with
    | some j => .ok j
    | none =>
      match braceSpan text.data with
      | some span =>
        (match jsonParse (String.mk span) with
         | some j => .ok j
         | none => .error invalidFormatMsg)
      | none => .error invalidFormatMsg

theorem parseJsonResponse_fence_sample :
    parseJsonResponse "prose \x60\x60\x60json\n\x7b\"a\":1\x7d\n\x60\x60\x60 tail"
      = .ok (.obj [("a", .num 1)]) := rfl

theorem parseJsonResponse_brace_sample :
    parseJsonResponse "prose \x7b\"a\":1\x7d tail" = .ok (.obj [("a", .num 1)]) := rfl

theorem parseJsonResponse_prose_sample :
    parseJsonResponse "no json here" = .error invalidFormatMsg := rfl

/-- True when `pat` occurs as a contiguous substring of `txt`. -/
def hasSub : List Char → List Char → Bool
  | txt, pat =>
    match txt with
    | [] => pat = []
    | _ :: rest => pat.isPrefixOf txt || hasSub rest pat

/-- `String.includes` of JavaScript. -/
def strHasSub (txt pat : String) : Bool := hasSub txt.data pat.data

/-- `toLowerCase` of JavaScript (ASCII letters). -/
def jsToLower (s : String) : String := String.mk (s.data.map Char.toLower)

/-- A JavaScript error value as inspected by `generateContentWithRetry`:
its `message` (absent modelled as `""`, matching `e.message || ''`), and the
optional `status` and `code` properties. -/
structure JsError where
  message : String
  status : Option String := none
  code : Option Int := none
  deriving Repr, DecidableEq

/-- The transient-fault classification of `generateContentWithRetry`
(`geminiService.ts` lines 75-84). -/
def isServerError (e : JsError) : Bool :=
  let m := jsToLower e.message
  strHasSub m "500" || strHasSub m "internal" || strHasSub m "resource exhausted" ||
    strHasSub m "server error" || strHasSub m "backend error" ||
    e.status == some "UNKNOWN" || e.code == some 6

/-- Outcome of one raw `ai.models.generateContent` invocation: a response with
the given text, or a thrown error. -/
inductive CallOutcome where
  | ok (text : String)
  | throws (e : JsError)
  deriving Repr, DecidableEq

/-- Error raised by `generateContentWithRetry`: the wrapped `AIServiceError`
on exhausted transient retries, or the original error rethrown. -/
inductive GenError where
  | aiService (message : String)
  | rethrown (e : JsError)
  deriving Repr, DecidableEq

/-- Message of the `AIServiceError` raised on transient-retry exhaustion
(`geminiService.ts` line 93). -/
def aiUnavailableMsg : String :=
  "There\x27s a problem on our end. The AI service seems to be unavailable or overloaded. Please try again in a few moments."

instance {ε α : Type} [DecidableEq ε] [DecidableEq α] : DecidableEq (Except ε α) := by
  intro a b
  cases a <;> cases b
  case error.error x y =>
    exact if h : x = y then .isTrue (by rw [h]) else .isFalse (by intro hc; cases hc; exact h rfl)
  case ok.ok x y =>
    exact if h : x = y then .isTrue (by rw [h]) else .isFalse (by intro hc; cases hc; exact h rfl)
  case error.ok x y => exact .isFalse (by intro hc; cases hc)
  case ok.error x y => exact .isFalse (by intro hc; cases hc)

/-- Trace of one `generateContentWithRetry` run: how many model invocations
were made, the successive backoff delays waited (in ms, chronological), and
the final result. -/
structure RetryTrace where
  invocations : Nat
  delays : List Nat
  result : Except GenError String
  deriving Repr, DecidableEq

/-- Embedding of `generateContentWithRetry` (`geminiService.ts` lines 67-99).
`call` scripts the outcome of each raw model invocation (numbered from `i`);
defaults in the source are `retries = 3`, `delay = 1000`.  On a transient
(`isServerError`) failure with budget remaining it waits `delay` and recurses
with `delay * 2`; on budget exhaustion it raises `AIServiceError`; any other
error is rethrown immediately. -/
def generateContentWithRetry (call : Nat → CallOutcome) : Nat → Nat → Nat → RetryTrace
  | 0, _, i =>
    (match call i with
     | .ok t => ⟨1, [], .ok t⟩
     | .throws e =>
       if isServerError e then ⟨1, [], .error (.aiService aiUnavailableMsg)⟩
       else ⟨1, [], .error (.rethrown e)⟩)
  | r + 1, delay, i =>
    (match call i with
     | .ok t => ⟨1, [], .ok t⟩
     | .throws e =>
       if isServerError e then
         let rest := generateContentWithRetry call r (delay * 2) (i + 1)
         ⟨rest.invocations + 1, delay :: rest.delays, rest.result⟩
       else ⟨1, [], .error (.rethrown e)⟩)

/-- A successful raw call is returned unchanged with one invocation and no
delay. -/
theorem retry_ok (call : Nat → CallOutcome) (retries delay i : Nat) (t : String)
    (h : call i = .ok t) :
    generateContentWithRetry call retries delay i = ⟨1, [], .ok t⟩ := by
  cases retries with
  | zero => unfold generateContentWithRetry; rw [h]
  | succ r => unfold generateContentWithRetry; rw [h]

/-- An error not classified as a server error is rethrown at once: one
invocation, no delay, original error preserved. -/
theorem retry_perm (call : Nat → CallOutcome) (retries delay i : Nat) (e : JsError)
    (h : call i = .throws e) (hperm : isServerError e = false) :
    generateContentWithRetry call retries delay i = ⟨1, [], .error (.rethrown e)⟩ := by
  cases retries with
  | zero => unfold generateContentWithRetry; rw [h]; simp [hperm]
  | succ r => unfold generateContentWithRetry; rw [h]; simp [hperm]

/-- A transient fault with no budget left raises `AIServiceError`. -/
theorem retry_exhaust (call : Nat → CallOutcome) (delay i : Nat) (e : JsError)
    (h : call i = .throws e) (hse : isServerError e = true) :
    generateContentWithRetry call 0 delay i
      = ⟨1, [], .error (.aiService aiUnavailableMsg)⟩ := by
  unfold generateContentWithRetry; rw [h]; simp [hse]

/-- A transient fault with budget remaining waits `delay` and recurses with a
doubled delay. -/
theorem retry_transient_step (call : Nat → CallOutcome) (r delay i : Nat) (e : JsError)
    (h : call i = .throws e) (hse : isServerError e = true) :
    generateContentWithRetry call (r + 1) delay i
      = ⟨(generateContentWithRetry call r (delay * 2) (i + 1)).invocations + 1,
         delay :: (generateContentWithRetry call r (delay * 2) (i + 1)).delays,
         (generateContentWithRetry call r (delay * 2) (i + 1)).result⟩ := by
  conv_lhs => unfold generateContentWithRetry
  rw [h]; simp [hse]

/-- Backoff schedule of the retrier: for some number `m ≤ retries` of
transient faults absorbed, the delays waited are exactly
`delay, delay*2, …, delay*2^(m-1)` and `m + 1` invocations are made. -/
theorem retry_schedule (call : Nat → CallOutcome) (retries delay i : Nat) :
    ∃ m ≤ retries,
      (generateContentWithRetry call retries delay i).delays
          = (List.range m).map (fun k => delay * 2 ^ k) ∧
        (generateContentWithRetry call retries delay i).invocations = m + 1 := by
  induction retries generalizing delay i with
  | zero =>
    refine ⟨0, le_rfl, ?_⟩
    cases h : call i with
    | ok t => rw [retry_ok call 0 delay i t h]; exact ⟨rfl, rfl⟩
    | throws e =>
      cases hse : isServerError e with
      | false => rw [retry_perm call 0 delay i e h hse]; exact ⟨rfl, rfl⟩
      | true => rw [retry_exhaust call delay i e h hse]; exact ⟨rfl, rfl⟩
  | succ r ih =>
    cases h : call i with
    | ok t =>
      refine ⟨0, Nat.zero_le _, ?_⟩
      rw [retry_ok call (r + 1) delay i t h]; exact ⟨rfl, rfl⟩
    | throws e =>
      cases hse : isServerError e with
      | false =>
        refine ⟨0, Nat.zero_le _, ?_⟩
        rw [retry_perm call (r + 1) delay i e h hse]; exact ⟨rfl, rfl⟩
      | true =>
        obtain ⟨m, hm, hdelays, hinv⟩ := ih (delay * 2) (i + 1)
        refine ⟨m + 1, Nat.succ_le_succ hm, ?_, ?_⟩
        · rw [retry_transient_step call r delay i e h hse]
          show delay :: (generateContentWithRetry call r (delay * 2) (i + 1)).delays = _
          rw [hdelays, List.range_succ_eq_map, List.map_cons, List.map_map]
          congr 1
          · simp
          · apply List.map_congr_left
            intro k _
            simp only [Function.comp, pow_succ]
            ring
        · rw [retry_transient_step call r delay i e h hse]
          show (generateContentWithRetry call r (delay * 2) (i + 1)).invocations + 1 = m + 1 + 1
          rw [hinv]

/-- `DraftMessage` from `src/types.ts`. -/
structure DraftMessage where
  language : String
  tone : String
  subject : Option String := none
  body : String
  deriving Repr, DecidableEq

/-- `ContactPerson` from `src/types.ts`. -/
structure ContactPerson where
  name : String
  title : String
  deriving Repr, DecidableEq

/-- `BusinessLead` from `src/types.ts`. -/
structure BusinessLead where
  id : Option String := none
  businessName : String
  officialWebsite : String
  contactEmail : List String
  contactPhone : List String
  contactWhatsApp : Option String := none
  contactPerson : Option ContactPerson := none
  companyDescription : String
  estimatedEmployeeCount : String
  inferredPrimaryLanguage : String
  companySizeCategory : String
  keyStrengthsIT : List String
  keyWeaknessesIT : List String
  customResearchResults : Option String := none
  customResearchFocus : Option String := none
  draftEmail : DraftMessage
  draftWhatsApp : DraftMessage
  deriving Repr, DecidableEq

/-- `hasWebsite` of `validateLead` (`geminiService.ts` line 336): the website
string is truthy and its lowercase form is not the sentinel. -/
def leadHasWebsite (lead : BusinessLead) : Bool :=
  lead.officialWebsite ≠ "" && jsToLower lead.officialWebsite ≠ "not found"

/-- `hasContactInfo` of `validateLead` (`geminiService.ts` line 337). -/
def leadHasContactInfo (lead : BusinessLead) : Bool :=
  lead.contactEmail ≠ [] || lead.contactPhone ≠ []

/-- The correction taken from the parsed validation response
(`geminiService.ts` line 355): applied only when `isCorrect` is the boolean
`false` and `correctedWebsite` is a truthy string whose lowercase form is not
the sentinel.  A truthy non-string `correctedWebsite` makes the source throw a
`TypeError` at `.toLowerCase()`, which the surrounding `try` catches, returning
the original lead; that path is therefore also modelled as `none`. -/
def correctionOf (validationData : Json) : Option String :=
  match validationData.getField "isCorrect", validationData.getField "correctedWebsite" with
  | some (.bool false), some (.str s) =>
    if s ≠ "" ∧ jsToLower s ≠ "not found" then some s else none
  | _, _ => none

/-- Embedding of `validateLead` (`geminiService.ts` lines 335-366), with the
transport call scripted by `call`; also returns how many raw model invocations
were issued (0 when the precondition check skips validation).  The retry
budget and delay are the source defaults (3, 1000). -/
def validateLeadT (call : Nat → CallOutcome) (lead : BusinessLead) : BusinessLead × Nat :=
  if !leadHasWebsite lead || !leadHasContactInfo lead then (lead, 0)
  else
    let t := generateContentWithRetry call 3 1000 0
    match t.result with
    | .error _ => (lead, t.invocations)
    | .ok text =>
      match parseJsonResponse text with
      | .error _ => (lead, t.invocations)
      | .ok validationData =>
        match correctionOf validationData with
        | some s => ({ lead with officialWebsite := s }, t.invocations)
        | none => (lead, t.invocations)

/-- The lead returned by `validateLead`. -/
def validateLead (call : Nat → CallOutcome) (lead : BusinessLead) : BusinessLead :=
  (validateLeadT call lead).1

mutual

/-- JavaScript template-string conversion of a parsed JSON value (used when a
company-name entry is interpolated into a prompt). -/
def jsToString : Json → String
  | .null => "null"
  | .bool b => if b then "true" else "false"
  | .num n => toString n
  | .str s => s
  | .arr xs => String.intercalate "," (jsToStringList xs)
  | .obj _ => "[object Object]"

def jsToStringList : List Json → List String
  | [] => []
  | x :: xs => jsToString x :: jsToStringList xs

end

/-- `companyData.companyNames || []` followed by the per-element use as a
string (`geminiService.ts` line 396).  Only a JSON array yields entries; an
absent or falsy field yields `[]`.  (A truthy non-array value would make the
untyped source crash later at `companyNames.map`; such malformed shapes are
outside the claims and collapse to `[]` here.) -/
def companyNamesOf (j : Json) : List String :=
  match j.getField "companyNames" with
  | some (.arr xs) => jsToStringList xs
  | _ => []

/-- JavaScript truthiness of a parsed JSON value. -/
def jsTruthy : Json → Bool
  | .null => false
  | .bool b => b
  | .num n => n ≠ 0
  | .str s => s ≠ ""
  | .arr _ => true
  | .obj _ => true

/-- JavaScript property read `v.length`: genuine lengths for arrays and
strings, the `"length"` field for objects, `undefined` (`none`) for the
other primitives. -/
def jsLengthVal : Json → Option Json
  | .arr xs => some (.num (xs.length : Int))
  | .str s => some (.num (s.length : Int))
  | .obj fields => Json.getField (.obj fields) "length"
  | _ => none

/-- JavaScript `ToNumber` on the values reachable here: numbers, booleans,
`null` and integer-literal strings (the empty string is 0); other strings
and the array/object coercions (which go through `toString`) are collapsed
to `NaN` (`none`).  `NaN > 0` and `undefined > 0` are both false, so this
collapse never lets an exotic `length` pass the guard wrongly. -/
def jsToNumber : Json → Option Int
  | .num n => some n
  | .bool b => some (if b then 1 else 0)
  | .null => some 0
  | .str s =>
    (match trimWsChars s.data with
     | [] => some 0
     | '-' :: ds => if ds ≠ [] ∧ ds.all isDigitCh then some (-(digitsVal ds : Int)) else none
     | ds => if ds.all isDigitCh then some ((digitsVal ds : Int)) else none)
  | .arr _ => none
  | .obj _ => none

/-- The JavaScript test `v.length > 0`. -/
def jsLengthGtZero (v : Json) : Bool :=
  match jsLengthVal v with
  | none => false
  | some lv =>
    match jsToNumber lv with
    | some m => 0 < m
    | none => false

/-- A per-company task value that survived the `lead !== null` filter of
`geminiService.ts` line 463: JavaScript `undefined` (which is `!== null` and
therefore survives!) or any non-null parsed JSON value — object, array,
string, number or boolean; the filter rejects only `null`. -/
inductive LeadVal where
  | undef : LeadVal
  | json : Json → LeadVal
  deriving Repr

/-- A JSON value as a task result: JSON `null` is JavaScript `null`, dropped
by the filter (`none`); every other value survives. -/
def leadValOfJson : Json → Option LeadVal
  | .null => none
  | j => some (.json j)

/-- Lines 447-450 of `geminiService.ts`:
`if (leadData.leads && leadData.leads.length > 0) return leadData.leads[0]`,
else `null` — with JavaScript semantics.  `leads` may be any truthy value
with a positive `length`: a nonempty array (whose head may be JSON `null`,
i.e. JavaScript `null`), a nonempty string (index 0 is its first character
as a one-character string), or an object with a positive `length` field
(index 0 is its `"0"` field, or `undefined` when that field is absent).
Values failing the guard yield `null` (`none`). -/
def taskValOf (leadData : Json) : Option LeadVal :=
  match leadData.getField "leads" with
  | none => none
  | some leads =>
    if jsTruthy leads && jsLengthGtZero leads then
      match leads with
      | .arr (l :: _) => leadValOfJson l
      | .str s =>
        (match s.data with
         | c :: _ => some (.json (.str (String.mk [c])))
         | [] => none)
      | .obj fields =>
        (match Json.getField (.obj fields) "0" with
         | some l => leadValOfJson l
         | none => some .undef)
      | _ => none
    else none

/-- Error message of the discovery `catch` for non-`AIServiceError` failures
(`geminiService.ts` line 392). -/
def failedFindMsg : String :=
  "Failed to find businesses. The AI may be experiencing high demand. Please try again later."

/-- Error message for an empty discovered-company list (`geminiService.ts`
line 399). -/
def noResultsMsg : String :=
  "No businesses found matching your criteria. Try broadening your search."

/-- Error message when every research task failed (`geminiService.ts`
line 466). -/
def allFailedMsg : String :=
  "There was a problem on our end researching the businesses. The AI service may be temporarily unavailable. Please try again later."

/-- Run-level error escaping `generateLeads`: the re-thrown `AIServiceError`,
a generic `Error` with the given message, or the uncaught `TypeError` thrown
at `validateLead` line 336 when a surviving task value is `undefined` (or has
a truthy non-string website), which rejects the validation `Promise.all`. -/
inductive RunError where
  | aiService (message : String)
  | err (message : String)
  | typeError
  deriving Repr, DecidableEq

/-- Scripts for every external model call a run can make: `disc` for the
discovery retrier, `detail idx` for the research retrier of company `idx`,
`valid idx` for the validation retrier of surviving lead `idx`. -/
structure RunScripts where
  disc : Nat → CallOutcome
  detail : Nat → Nat → CallOutcome
  valid : Nat → Nat → CallOutcome

/-- Observable trace of one `generateLeads` run: emitted progress values (in
order), raw model invocations made by the discovery retrier, the company
names for which a research request was issued, the per-company research
invocation counts, and the run result. -/
structure RunTrace where
  progress : List ℚ
  discInvocations : Nat
  researched : List String
  detailInvocations : List Nat
  result : Except RunError (List LeadVal)
  deriving Repr

/-- One per-company research task (`geminiService.ts` lines 436-456): run the
detail request through the retrier, parse, then apply the lines 447-450
guard (`taskValOf`); `none` is the task's `null` — produced on any retrier
error or parse exception (the attached `.catch` swallows both) and by the
guard itself.  Returns the surviving value (if any) and the raw invocation
count. -/
def researchOutcome (call : Nat → CallOutcome) : Option LeadVal × Nat :=
  let t := generateContentWithRetry call 3 1000 0
  match t.result with
  | .error _ => (none, t.invocations)
  | .ok text =>
    match parseJsonResponse text with
    | .error _ => (none, t.invocations)
    | .ok leadData => (taskValOf leadData, t.invocations)

/-- Object spread update `{...lead, officialWebsite: v}`: replace the field
when present (duplicate keys from the parser are all replaced, preserving
the last-wins read), append it otherwise; non-objects are returned unchanged
(the correction branch is only reachable for objects). -/
def setField : Json → String → Json → Json
  | .obj fields, k, v =>
    if fields.any (fun p => p.1 = k) then
      .obj (fields.map (fun p => if p.1 = k then (k, v) else p))
    else .obj (fields ++ [(k, v)])
  | j, _, _ => j

/-- Line 336 of `geminiService.ts` over a raw parsed value:
`lead.officialWebsite && lead.officialWebsite.toLowerCase() !== 'not found'`.
Reading the field off a non-object gives `undefined` (falsy); a truthy
non-string field makes `.toLowerCase()` throw a `TypeError` (`.error ()`) —
and this line sits *outside* the function's `try`, so the throw rejects the
validation promise. -/
def jsHasWebsite (j : Json) : Except Unit Bool :=
  match j.getField "officialWebsite" with
  | none => .ok false
  | some w =>
    if jsTruthy w then
      match w with
      | .str s => .ok (jsToLower s ≠ "not found")
      | _ => .error ()
    else .ok false

/-- `field && field.length > 0` for the contact lists (line 337); this one
cannot throw. -/
def jsFieldNonEmpty (j : Json) (k : String) : Bool :=
  match j.getField k with
  | none => false
  | some v => jsTruthy v && jsLengthGtZero v

/-- `hasContactInfo` of `validateLead` (line 337) over a raw parsed value. -/
def jsHasContactInfo (j : Json) : Bool :=
  jsFieldNonEmpty j "contactEmail" || jsFieldNonEmpty j "contactPhone"

/-- `validateLead` (`geminiService.ts` lines 335-366) applied to a raw
surviving task value, as the orchestrator actually does — nothing enforces
the `as BusinessLead` cast at runtime.  `undefined` throws a `TypeError` at
line 336 (outside the `try`), rejecting the promise (`.error ()`), as does a
truthy non-string website; any non-object value reads `undefined` fields,
fails the precondition and is returned unchanged; objects follow the same
logic as the typed `validateLead`, with every failure inside the `try`
returning the input unchanged. -/
def validateLeadJs (call : Nat → CallOutcome) : LeadVal → Except Unit LeadVal
  | .undef => .error ()
  | .json j =>
    match jsHasWebsite j with
    | .error u => .error u
    | .ok hw =>
      if !hw || !jsHasContactInfo j then .ok (.json j)
      else
        let t := generateContentWithRetry call 3 1000 0
        match t.result with
        | .error _ => .ok (.json j)
        | .ok text =>
          match parseJsonResponse text with
          | .error _ => .ok (.json j)
          | .ok validationData =>
            match correctionOf validationData with
            | some s => .ok (.json (setField j "officialWebsite" (.str s)))
            | none => .ok (.json j)

/-- The validation pass `Promise.all(successfulLeads.map(validateLead))`
(lines 471-472), with the validation transport script chosen by position: if
any validation promise rejects (the line-336 `TypeError`), the join rejects
and the whole run throws; otherwise the validated values are returned in
order. -/
def validatedOf (valid : Nat → Nat → CallOutcome) : Nat → List LeadVal → Except Unit (List LeadVal)
  | _, [] => .ok []
  | i, l :: ls =>
    match validateLeadJs (valid i) l with
    | .error u => .error u
    | .ok v =>
      match validatedOf valid (i + 1) ls with
      | .error u => .error u
      | .ok vs => .ok (v :: vs)

/-- Progress value emitted by the `i`-th staggered simulation timer when `n`
companies were discovered (`geminiService.ts` lines 420-421):
`10 + ((i+1)/n) * 75`. -/
def timerProgress (n i : Nat) : ℚ := 10 + ((i + 1 : ℚ) / (n : ℚ)) * 75

/-- `initialResults` (`geminiService.ts` line 458): the outcome and raw
invocation count of every per-company research task, in company order. -/
def researchResultsOf (s : RunScripts) (n : Nat) : List (Option LeadVal × Nat) :=
  (List.range n).map (fun idx => researchOutcome (s.detail idx))

/-- `successfulLeads` (`geminiService.ts` line 463): the research results
that survive the `lead !== null` filter, in company order — note that
JavaScript `undefined` survives it. -/
def successesOf (s : RunScripts) (n : Nat) : List LeadVal :=
  ((researchResultsOf s n).map Prod.fst).reduceOption

/-- The research-and-aggregation phase of `generateLeads` (lines 402-477),
entered with the discovery invocation count and the discovered company names
(known nonempty).  `timersFired` is the number of staggered progress timers
that ran before `Promise.all` settled and the simulation was cancelled — the
only scheduling freedom in the run (timers fire in order of their strictly
increasing deadlines; a timer cleared or flagged after cancellation emits
nothing).  The 90% emission (line 470) precedes the `await` of the
validation join, so a validation `TypeError` aborts the run after 90 but
before 100. -/
def runResearchPhase (s : RunScripts) (timersFired discInv : Nat) (companyNames : List String) : RunTrace :=
  let n := companyNames.length
  let timerEvents := (List.range (min timersFired n)).map (fun i => timerProgress n i)
  let successfulLeads := successesOf s n
  let detailInvs := (researchResultsOf s n).map Prod.snd
  if successfulLeads.length = 0 then
    ⟨[5, 10] ++ timerEvents, discInv, companyNames, detailInvs, .error (.err allFailedMsg)⟩
  else
    match validatedOf s.valid 0 successfulLeads with
    | .ok validatedLeads =>
      ⟨[5, 10] ++ timerEvents ++ [90, 100], discInv, companyNames, detailInvs,
        .ok validatedLeads⟩
    | .error _ =>
      ⟨[5, 10] ++ timerEvents ++ [90], discInv, companyNames, detailInvs,
        .error .typeError⟩

/-- Embedding of `generateLeads` (`geminiService.ts` lines 371-478).  The
trace starts with the 5% progress emission; a discovery failure re-throws
`AIServiceError` or wraps other errors (lines 387-393); the response is
parsed outside that `try`, so a parse throw propagates as-is (line 395); an
empty company list throws the no-results error before any research request
(lines 398-400); otherwise the run proceeds to research, the all-failed
check, validation, and the 90%/100% emissions. -/
def generateLeads (s : RunScripts) (timersFired : Nat) : RunTrace :=
  let discT := generateContentWithRetry s.disc 3 1000 0
  match discT.result with
  | .error (.aiService m) => ⟨[5], discT.invocations, [], [], .error (.aiService m)⟩
  | .error (.rethrown _) => ⟨[5], discT.invocations, [], [], .error (.err failedFindMsg)⟩
  | .ok text =>
    match parseJsonResponse text with
    | .error m => ⟨[5], discT.invocations, [], [], .error (.err m)⟩
    | .ok companyData =>
      let companyNames := companyNamesOf companyData
      if companyNames.length = 0 then
        ⟨[5], discT.invocations, [], [], .error (.err noResultsMsg)⟩
      else
        runResearchPhase s timersFired discT.invocations companyNames

/-- Every run of the transport retrier makes at least one model invocation. -/
theorem retry_invocations_pos (call : Nat → CallOutcome) (retries delay i : Nat) :
    1 ≤ (generateContentWithRetry call retries delay i).invocations := by
  obtain ⟨m, _, _, hinv⟩ := retry_schedule call retries delay i
  omega

/-- C4 counterexample: on the empty input text the parser returns the empty
object as an ordinary value — it does not fail with any error, contradicting
the claim that empty/absent text fails with `EmptyResponse`
(`geminiService.ts` lines 28-31: `if (!text) { ... return {}; }`). -/
theorem c4_counterexample : parseJsonResponse "" = .ok (.obj []) := rfl

/-- C4 (amended): for every empty (or absent, modelled as empty) input text
the parser logs and returns the empty object `{}` to the caller, rather than
failing. -/
theorem c4_empty_returns_empty_object (t : String) (h : t.data = []) :
    parseJsonResponse t = .ok (.obj []) := by
  unfold parseJsonResponse
  rw [if_pos h]

theorem c4_witness : ("" : String).data = [] ∧ parseJsonResponse "" = .ok (.obj []) :=
  ⟨rfl, c4_empty_returns_empty_object "" rfl⟩

/-- Text containing two fenced blocks — the first with non-JSON contents, the
second a json-tagged block with valid JSON — wrapped in prose whose braces
make the first-`{`-to-last-`}` span unparsable. -/
def c7Text : String :=
  "\x7b \x60\x60\x60x\x60\x60\x60 \x60\x60\x60json\n\x7b\"a\":1\x7d\n\x60\x60\x60 oops"

/-- The second fenced block occurring inside `c7Text`. -/
def c7FenceText : String := "\x60\x60\x60json\n\x7b\"a\":1\x7d\n\x60\x60\x60"

/-- C7 counterexample: `c7Text` literally contains a json-tagged fenced code
block whose contents are valid JSON, yet the parser throws the
invalid-format error: the regex matches only the *first* fenced block (here
`x`, not JSON), and the brace-span fallback picks up the surrounding prose
braces.  This refutes the claim for texts with more than one fence. -/
theorem c7_counterexample :
    strHasSub c7Text c7FenceText = true ∧
    jsonParse "\x7b\"a\":1\x7d" = some (.obj [("a", .num 1)]) ∧
    parseJsonResponse c7Text = .error invalidFormatMsg :=
  ⟨rfl, rfl, rfl⟩

/-- C7 (amended): if the *first* fenced code block (as matched by the fence
regex, i.e. `extractFence`) has a nonempty capture whose contents are valid
JSON, the parser returns that JSON regardless of surrounding prose; and when
no fence capture is usable (absent, empty, or unparsable) but the
first-`{`-to-last-`}` span is valid JSON, the parser returns the object
parsed from that span. -/
theorem c7_parser_fallback_chain :
    (∀ (text : String) (cap : List Char) (j : Json),
        extractFence text.data = some cap → cap ≠ [] →
        jsonParse (String.mk cap) = some j →
        parseJsonResponse text = .ok j) ∧
    (∀ (text : String) (span : List Char) (j : Json),
        (∀ cap, extractFence text.data = some cap →
            cap = [] ∨ jsonParse (String.mk cap) = none) →
        braceSpan text.data = some span →
        jsonParse (String.mk span) = some j →
        parseJsonResponse text = .ok j) := by
  constructor
  · intro text cap j hf hne hp
    have ht : ¬ text.data = [] := by
      intro h0
      rw [h0] at hf
      simp [extractFence, splitTicks] at hf
    unfold parseJsonResponse
    simp only [if_neg ht, hf, if_neg hne, hp]
  · intro text span j hfence hbr hp
    have ht : ¬ text.data = [] := by
      intro h0
      rw [h0] at hbr
      simp [braceSpan] at hbr
    unfold parseJsonResponse
    simp only [if_neg ht]
    rcases hEF : extractFence text.data with _ | cap
    · simp only [hEF, hbr, hp]
    · rcases hfence cap hEF with hcape | hnone
      · subst hcape
        simp only [hEF, hbr, hp, if_pos]
      · simp only [hEF, hnone, ite_self, hbr, hp]

/-- Input exercising the first (fence) branch of the amended C7 theorem. -/
def c7WitnessText : String := "prose \x60\x60\x60json\n\x7b\"a\":2\x7d\n\x60\x60\x60 tail"

theorem c7_witness :
    parseJsonResponse c7WitnessText = .ok (.obj [("a", .num 2)]) :=
  c7_parser_fallback_chain.1 c7WitnessText ("\x7b\"a\":2\x7d").data (.obj [("a", .num 2)])
    rfl (by decide) rfl

/-- A response whose text announces a safety/content-policy block. -/
def blockedText : String :=
  "Your request was blocked by safety policy and cannot be completed."

/-- Call script whose every invocation succeeds with the blocked-response
text. -/
def blockedRespCall : Nat → CallOutcome := fun _ => .ok blockedText

/-- C5 counterexample: a model response indicating a safety/content-policy
block is returned by the transport retrier as an ordinary success — no
distinguished `ServiceRefusal` (or any other) error is raised.  The retrier
only ever inspects *thrown* errors, and only for the server-error patterns;
no content-policy classification exists in the code. -/
theorem c5_counterexample :
    generateContentWithRetry blockedRespCall 3 1000 0 = ⟨1, [], .ok blockedText⟩ := rfl

/-- C5 (amended): the retrier performs no content-policy classification at
all.  A successful response — whatever its text says — is returned unchanged
after one invocation with no delay, and a thrown error that does not match
the transient server-error patterns (for example a safety-block rejection)
is rethrown immediately and unchanged: no retry, no backoff delay, exact
message preserved. -/
theorem c5_no_refusal_classification (call : Nat → CallOutcome) (retries delay i : Nat) :
    (∀ t, call i = .ok t →
        generateContentWithRetry call retries delay i = ⟨1, [], .ok t⟩) ∧
    (∀ e, call i = .throws e → isServerError e = false →
        generateContentWithRetry call retries delay i = ⟨1, [], .error (.rethrown e)⟩) :=
  ⟨fun t h => retry_ok call retries delay i t h,
   fun e h hp => retry_perm call retries delay i e h hp⟩

/-- A thrown error carrying a safety-block message (not matching any
server-error pattern). -/
def safetyErr : JsError := { message := "Request blocked by safety policy" }

def safetyThrowCall : Nat → CallOutcome := fun _ => .throws safetyErr

theorem c5_witness :
    generateContentWithRetry safetyThrowCall 3 1000 0
      = ⟨1, [], .error (.rethrown safetyErr)⟩ :=
  (c5_no_refusal_classification safetyThrowCall 3 1000 0).2 safetyErr rfl rfl

/-- C6: the transport retrier's backoff schedule.  For some number `m` of
absorbed transient faults with `m ≤ retries`, the successive delays are
exactly `delay * 2^0, …, delay * 2^(m-1)` — so the `N`-th retry waits
`2^(N-1)` times the initial delay — and `m + 1 ≤ retries + 1` model
invocations are made; and a fault not classified as transient
(`isServerError = false`) is raised immediately: one invocation, no backoff
delay, no further call. -/
theorem c6_backoff_schedule (call : Nat → CallOutcome) (retries delay i : Nat) :
    (∃ m ≤ retries,
        (generateContentWithRetry call retries delay i).delays
            = (List.range m).map (fun k => delay * 2 ^ k) ∧
          (generateContentWithRetry call retries delay i).invocations = m + 1) ∧
    (∀ e, call i = .throws e → isServerError e = false →
        generateContentWithRetry call retries delay i = ⟨1, [], .error (.rethrown e)⟩) :=
  ⟨retry_schedule call retries delay i,
   fun e h hp => retry_perm call retries delay i e h hp⟩

/-- A transient fault (message matches the `500`/`internal` patterns). -/
def transientErr : JsError := { message := "500 Internal Server Error" }

/-- A permanent fault (no server-error pattern, no special status/code). -/
def permErr : JsError := { message := "Invalid request payload" }

/-- Script: two transient faults, then success. -/
def flakyCall : Nat → CallOutcome :=
  fun i => if i < 2 then .throws transientErr else .ok "done"

def permFaultCall : Nat → CallOutcome := fun _ => .throws permErr

theorem c6_witness :
    (generateContentWithRetry flakyCall 3 1000 0).delays = [1000, 2000] ∧
    (generateContentWithRetry flakyCall 3 1000 0).invocations = 3 ∧
    generateContentWithRetry permFaultCall 3 1000 0
      = ⟨1, [], .error (.rethrown permErr)⟩ :=
  ⟨rfl, rfl, (c6_backoff_schedule permFaultCall 3 1000 0).2 permErr rfl rfl⟩

/-- The `(validateLeadT …).2` component equals the retrier's invocation count
whenever the precondition check passes. -/
theorem validateLeadT_snd (call : Nat → CallOutcome) (lead : BusinessLead)
    (h1 : leadHasWebsite lead = true) (h2 : leadHasContactInfo lead = true) :
    (validateLeadT call lead).2 = (generateContentWithRetry call 3 1000 0).invocations := by
  unfold validateLeadT
  rw [if_neg (by rw [h1, h2]; simp)]
  dsimp only
  split
  · rfl
  · split
    · rfl
    · split <;> rfl

/-- An empty draft message (used to build concrete leads). -/
def emptyDraft : DraftMessage := { language := "", tone := "", body := "" }

/-- A lead with a genuine website but no contact information at all. -/
def websiteOnlyLead : BusinessLead :=
  { businessName := "Acme"
    officialWebsite := "https://a.com"
    contactEmail := []
    contactPhone := []
    companyDescription := ""
    estimatedEmployeeCount := ""
    inferredPrimaryLanguage := ""
    companySizeCategory := ""
    keyStrengthsIT := []
    keyWeaknessesIT := []
    draftEmail := emptyDraft
    draftWhatsApp := emptyDraft }

/-- A call script that would answer any validation request. -/
def probeCall : Nat → CallOutcome := fun _ => .ok "probe"

/-- C8 counterexample: `websiteOnlyLead` has a present, non-sentinel website,
yet the validator skips it (zero model invocations, lead returned unchanged)
because it also requires contact info (`hasContactInfo`,
`geminiService.ts` lines 337-341) — refuting the claim that the skip happens
*exactly* when the website is absent or the sentinel. -/
theorem c8_counterexample :
    leadHasWebsite websiteOnlyLead = true ∧
    validateLeadT probeCall websiteOnlyLead = (websiteOnlyLead, 0) :=
  ⟨rfl, rfl⟩

/-- C8 (amended): the validator skips (returns its input unchanged, issuing
no model call) exactly when the lead's website is absent/sentinel OR the
lead has neither emails nor phone numbers; when both a genuine website and
some contact info are present it issues at least one validation model
invocation. -/
theorem c8_validator_precondition (call : Nat → CallOutcome) (lead : BusinessLead) :
    ((leadHasWebsite lead = false ∨ leadHasContactInfo lead = false) →
        validateLeadT call lead = (lead, 0)) ∧
    (leadHasWebsite lead = true → leadHasContactInfo lead = true →
        1 ≤ (validateLeadT call lead).2) := by
  constructor
  · intro h
    unfold validateLeadT
    rcases h with h | h <;> simp [h]
  · intro h1 h2
    rw [validateLeadT_snd call lead h1 h2]
    exact retry_invocations_pos call 3 1000 0

/-- A lead with both a genuine website and contact info. -/
def fullLead : BusinessLead := { websiteOnlyLead with contactEmail := ["info@a.com"] }

theorem c8_witness : 1 ≤ (validateLeadT probeCall fullLead).2 :=
  (c8_validator_precondition probeCall fullLead).2 rfl rfl

/-- A correction extracted from the validation response satisfies the
truthy-and-non-sentinel conditions of `geminiService.ts` line 355. -/
theorem correctionOf_spec (j : Json) (s : String) (h : correctionOf j = some s) :
    s ≠ "" ∧ jsToLower s ≠ "not found" := by
  unfold correctionOf at h
  split at h
  · split at h
    · rename_i hcond
      cases h
      exact hcond
    · cases h
  · cases h

/-- C9: the validator is non-destructive.  Its output equals the input lead,
or differs from it exactly in `officialWebsite`, which is then a genuine
correction (nonempty and not the sentinel `"Not Found"`); in particular a
sentinel correction never overwrites the website, and every other field is
always preserved.  Moreover, on an unrecoverable transport error the
original lead is returned unchanged. -/
theorem c9_validator_nondestructive (call : Nat → CallOutcome) (lead : BusinessLead) :
    (validateLead call lead = lead ∨
      ∃ s, s ≠ "" ∧ jsToLower s ≠ "not found" ∧
        validateLead call lead = { lead with officialWebsite := s }) ∧
    (∀ ge, (generateContentWithRetry call 3 1000 0).result = .error ge →
        validateLead call lead = lead) := by
  constructor
  · unfold validateLead validateLeadT
    by_cases hg : (!leadHasWebsite lead || !leadHasContactInfo lead) = true
    · rw [if_pos hg]; left; rfl
    · rw [if_neg hg]
      rcases hres : (generateContentWithRetry call 3 1000 0).result with ge | text
      · simp [hres]
      · rcases hp : parseJsonResponse text with m | vd
        · simp [hres, hp]
        · rcases hc : correctionOf vd with _ | s
          · simp [hres, hp, hc]
          · simp only [hres, hp, hc]
            right
            obtain ⟨hs1, hs2⟩ := correctionOf_spec vd s hc
            exact ⟨s, hs1, hs2, rfl⟩
  · intro ge hres
    unfold validateLead validateLeadT
    by_cases hg : (!leadHasWebsite lead || !leadHasContactInfo lead) = true
    · rw [if_pos hg]
    · rw [if_neg hg]
      simp [hres]

theorem c9_witness : validateLead permFaultCall fullLead = fullLead :=
  (c9_validator_nondestructive permFaultCall fullLead).2 (.rethrown permErr) rfl

/-- C2: when the discovery response parses to a company-name list of length
zero, the run fails with the no-results error ("broaden your search") before
any per-company research: no company is researched and no detail model
invocation is made. -/
theorem c2_no_candidates_fail_fast (s : RunScripts) (k : Nat) (text : String) (j : Json)
    (hdisc : (generateContentWithRetry s.disc 3 1000 0).result = .ok text)
    (hparse : parseJsonResponse text = .ok j)
    (hempty : companyNamesOf j = []) :
    (generateLeads s k).result = .error (.err noResultsMsg) ∧
    (generateLeads s k).researched = [] ∧
    (generateLeads s k).detailInvocations = [] := by
  unfold generateLeads
  simp [hdisc, hparse, hempty]

/-- Discovery response carrying an empty company list. -/
def emptyListText : String := "\x7b\"companyNames\":[]\x7d"

def emptyObjText : String := "\x7b\x7d"

def w2Scripts : RunScripts :=
  { disc := fun _ => .ok emptyListText
    detail := fun _ _ => .ok emptyObjText
    valid := fun _ _ => .ok emptyObjText }

def w2Json : Json := .obj [("companyNames", .arr [])]

theorem c2_witness :
    (generateLeads w2Scripts 0).result = .error (.err noResultsMsg) ∧
    (generateLeads w2Scripts 0).researched = [] ∧
    (generateLeads w2Scripts 0).detailInvocations = [] :=
  c2_no_candidates_fail_fast w2Scripts 0 emptyListText w2Json rfl rfl rfl

def w1DiscText : String := "\x7b\"companyNames\":[\"Acme\",\"Beta\"]\x7d"

/-- Scripts whose discovery transport succeeds immediately with the literal
`{}` text; a second attempt (which never happens) would have returned a valid
company list.  Details also answer `{}`. -/
def c3Scripts : RunScripts :=
  { disc := fun i => if i = 0 then .ok emptyObjText else .ok w1DiscText
    detail := fun _ _ => .ok emptyObjText
    valid := fun _ _ => .ok emptyObjText }

/-- C3 counterexample: a successful transport call returning the literal
text `{}` is accepted by the semantic layer, not re-attempted: the run makes
exactly one discovery invocation (even though a second attempt would have
returned a valid company list) and immediately fails with the no-results
error. -/
theorem c3_counterexample :
    (generateLeads c3Scripts 0).result = .error (.err noResultsMsg) ∧
    (generateLeads c3Scripts 0).discInvocations = 1 :=
  ⟨rfl, rfl⟩

/-- C3 (amended): no semantic-layer retry exists.  A successful transport
call whose text parses to the empty object is accepted as-is: at discovery
it produces the no-results error after a single generate-and-parse attempt
(one transport invocation); at per-company detail it makes that company's
task yield `null` (dropping the company) after a single attempt. -/
theorem c3_no_semantic_retry :
    (∀ (s : RunScripts) (k : Nat) (text : String) (j : Json),
        s.disc 0 = .ok text → parseJsonResponse text = .ok j → companyNamesOf j = [] →
        (generateLeads s k).result = .error (.err noResultsMsg) ∧
          (generateLeads s k).discInvocations = 1) ∧
    (∀ (call : Nat → CallOutcome) (text : String),
        call 0 = .ok text → parseJsonResponse text = .ok (.obj []) →
        researchOutcome call = (none, 1)) := by
  constructor
  · intro s k text j hd hp he
    have hdisc := retry_ok s.disc 3 1000 0 text hd
    unfold generateLeads
    simp [hdisc, hp, he]
  · intro call text hd hp
    have ht := retry_ok call 3 1000 0 text hd
    unfold researchOutcome
    simp [ht, hp, taskValOf, Json.getField]

theorem c3_witness :
    ((generateLeads c3Scripts 1).result = .error (.err noResultsMsg) ∧
      (generateLeads c3Scripts 1).discInvocations = 1) ∧
    researchOutcome (c3Scripts.detail 0) = (none, 1) :=
  ⟨c3_no_semantic_retry.1 c3Scripts 1 emptyObjText (.obj []) rfl rfl rfl,
   c3_no_semantic_retry.2 (c3Scripts.detail 0) emptyObjText rfl rfl⟩

/-- Every staggered timer emits at least 10. -/
theorem timerProgress_ge (n i : Nat) : (10 : ℚ) ≤ timerProgress n i := by
  unfold timerProgress
  have h1 : (0 : ℚ) ≤ ((i + 1 : ℚ) / (n : ℚ)) * 75 := by positivity
  linarith

/-- A timer for company index `i < n` emits at most 85. -/
theorem timerProgress_le (n i : Nat) (hi : i + 1 ≤ n) : timerProgress n i ≤ 85 := by
  unfold timerProgress
  have hn0 : 0 < n := Nat.lt_of_lt_of_le (Nat.succ_pos i) hi
  have hdiv : ((i : ℚ) + 1) / (n : ℚ) ≤ 1 := by
    rw [div_le_one (by exact_mod_cast hn0)]
    exact_mod_cast hi
  nlinarith

/-- Timer emissions grow with the company index. -/
theorem timerProgress_mono (n i j : Nat) (hn : 0 < n) (hij : i ≤ j) :
    timerProgress n i ≤ timerProgress n j := by
  unfold timerProgress
  have hn' : (0 : ℚ) < n := by exact_mod_cast hn
  have hij' : ((i : ℚ) + 1) ≤ ((j : ℚ) + 1) := by exact_mod_cast Nat.succ_le_succ hij
  gcongr

/-- The full success-path progress sequence is pairwise non-decreasing. -/
theorem run_progress_pairwise (n kk : Nat) (hn : 1 ≤ n) (hkk : kk ≤ n) :
    List.Pairwise (· ≤ ·)
      (([5, 10] : List ℚ)
        ++ ((List.range kk).map (fun i => timerProgress n i) ++ [90, 100])) := by
  rw [List.pairwise_append]
  refine ⟨?_, ?_, ?_⟩
  · simp [List.pairwise_cons]
    norm_num
  · rw [List.pairwise_append]
    refine ⟨?_, ?_, ?_⟩
    · exact List.Pairwise.map _
        (fun a b hab => timerProgress_mono n a b hn (le_of_lt hab))
        (List.pairwise_lt_range kk)
    · simp [List.pairwise_cons]
      norm_num
    · intro x hx y hy
      obtain ⟨i, hi, rfl⟩ := List.mem_map.mp hx
      have hi' : i + 1 ≤ n := le_trans (List.mem_range.mp hi) hkk
      have h85 := timerProgress_le n i hi'
      rcases List.mem_cons.mp hy with rfl | hy'
      · linarith
      · rcases List.mem_singleton.mp hy' with rfl
        linarith
  · intro x hx y hy
    have hx510 : x = 5 ∨ x = 10 := by
      rcases List.mem_cons.mp hx with rfl | hx'
      · exact Or.inl rfl
      · exact Or.inr (List.mem_singleton.mp hx')
    have hx10 : x ≤ 10 := by rcases hx510 with rfl | rfl <;> norm_num
    rcases List.mem_append.mp hy with hy1 | hy2
    · obtain ⟨i, _, rfl⟩ := List.mem_map.mp hy1
      have := timerProgress_ge n i
      linarith
    · rcases List.mem_cons.mp hy2 with rfl | hy'
      · linarith
      · rcases List.mem_singleton.mp hy' with rfl
        linarith

/-- C10: within one run, every emitted progress value is greater than or
equal to the previously emitted one, for every script and every number of
staggered timers that managed to fire before cancellation — the only
scheduling freedom of the run (timers are scheduled with strictly increasing
deadlines so they fire in index order, and after `Promise.all` settles the
simulation is cancelled before the 90%/100% emissions). -/
theorem c10_progress_monotone (s : RunScripts) (k : Nat) :
    List.Chain' (· ≤ ·) (generateLeads s k).progress := by
  unfold generateLeads
  rcases hres : (generateContentWithRetry s.disc 3 1000 0).result with ge | text
  · rcases ge with m | e
    · simp [hres]
    · simp [hres]
  · rcases hp : parseJsonResponse text with m | j
    · simp [hres, hp]
    · by_cases hlen : (companyNamesOf j).length = 0
      · simp [hres, hp, hlen]
      · simp only [hres, hp, if_neg hlen]
        unfold runResearchPhase
        have hn : 1 ≤ (companyNamesOf j).length := Nat.one_le_iff_ne_zero.mpr hlen
        have hkk : min k (companyNamesOf j).length ≤ (companyNamesOf j).length :=
          min_le_right _ _
        have hpw := run_progress_pairwise (companyNamesOf j).length
          (min k (companyNamesOf j).length) hn hkk
        by_cases hs : (successesOf s (companyNamesOf j).length).length = 0
        · simp only [if_pos hs]
          have hsub :
              (([5, 10] : List ℚ)
                  ++ (List.range (min k (companyNamesOf j).length)).map
                    (fun i => timerProgress (companyNamesOf j).length i)).Sublist
                (([5, 10] : List ℚ)
                  ++ ((List.range (min k (companyNamesOf j).length)).map
                      (fun i => timerProgress (companyNamesOf j).length i) ++ [90, 100])) := by
            rw [← List.append_assoc]
            exact List.sublist_append_left _ _
          exact (List.Pairwise.sublist hsub hpw).chain'
        · simp only [if_neg hs]
          rcases hv : validatedOf s.valid 0 (successesOf s (companyNamesOf j).length)
            with u | vs
          · simp only [hv]
            have h90 : (([90] : List ℚ)).Sublist ([90, 100] : List ℚ) :=
              List.Sublist.cons₂ _ (List.nil_sublist _)
            have hsub2 :
                (([5, 10] : List ℚ)
                    ++ ((List.range (min k (companyNamesOf j).length)).map
                        (fun i => timerProgress (companyNamesOf j).length i) ++ [90])).Sublist
                  (([5, 10] : List ℚ)
                    ++ ((List.range (min k (companyNamesOf j).length)).map
                        (fun i => timerProgress (companyNamesOf j).length i) ++ [90, 100])) :=
              List.Sublist.append (List.Sublist.refl _)
                (List.Sublist.append (List.Sublist.refl _) h90)
            exact (List.Pairwise.sublist hsub2 hpw).chain'
          · simp only [hv]
            exact hpw.chain'
